import Mathlib

/-!
Verification of the signal-bot core (`bot_main.py`): the indicator pipeline
(`generate_signal`, `analyze_all_pairs`) and the auto-signal scheduler
(`start`, `stop`, `auto_signal_loop`).

Modelling conventions:
* Close prices are rationals (idealised floats); an indicator value that the
  libraries leave as NaN (not enough history) is `none`, and every float
  comparison against NaN is `false`, which the `Option` matches reproduce.
* `ta.trend.ema_indicator(close, window)` is pandas
  `close.ewm(span=window, min_periods=window, adjust=False).mean()`:
  the recursion y0 = x0, y(i+1) = (1-a)*y(i) + a*x(i+1) with a = 2/(window+1),
  masked to NaN before `window` observations have accumulated.
* `ta.volatility.BollingerBands(close, window=20, window_dev=2)` is the rolling
  mean over the trailing 20 closes and the rolling population standard
  deviation (pandas `.std(ddof=0)`), bands = mavg plus or minus 2*std, masked to NaN
  before 20 observations.  We carry the rolling mean and the rolling variance;
  the square root only appears in comparisons, encoded exactly over the
  rationals (`ltHband`, `gtLband`) and bridged to `Real.sqrt` by lemmas.
* A Python exception escaping a function is `none` in an `Option` result.
-/

namespace SignalBot

/-- One OHLC candle row of the DataFrame built by `fetch_market_data`. -/
structure Candle where
  open_ : ℚ
  high : ℚ
  low : ℚ
  close : ℚ
deriving DecidableEq

/-- The six signal categories produced by the pipeline, in the source they are
the returned message strings of `generate_signal`. -/
inductive Signal
  | StrongBuy
  | StrongSell
  | WeakBuy
  | WeakSell
  | Neutral
  | NoData
deriving DecidableEq

/-- pandas `ewm(adjust=False).mean()` recursion over the close series:
`y 0 = x 0`, `y (i+1) = (1-a) * y i + a * x (i+1)`. -/
def ewm (a : ℚ) (xs : List ℚ) : Nat → ℚ
  | 0 => xs.getD 0 0
  | i + 1 => (1 - a) * ewm a xs i + a * xs.getD (i + 1) 0

/-- `ta.trend.ema_indicator(close, window)` at position `i`: the `ewm`
recursion with smoothing `2/(window+1)`, NaN (`none`) until `window`
observations have accumulated. -/
def ema_indicator (window : Nat) (xs : List ℚ) (i : Nat) : Option ℚ :=
  if window ≤ i + 1 ∧ i < xs.length then some (ewm (2 / ((window : ℚ) + 1)) xs i) else none

/-- The trailing window of length `w` ending at position `i` (pandas rolling). -/
def rollingWindow (w : Nat) (xs : List ℚ) (i : Nat) : List ℚ :=
  (xs.take (i + 1)).drop (i + 1 - w)

/-- Arithmetic mean of a list (0 for the empty list, never hit under the
rolling masks). -/
def listMean (l : List ℚ) : ℚ :=
  l.sum / (l.length : ℚ)

/-- Population variance of a list (pandas `.std(ddof=0)` squared). -/
def listVar (l : List ℚ) : ℚ :=
  ((l.map (fun x => (x - listMean l) ^ 2)).sum) / (l.length : ℚ)

/-- `bb.bollinger_mavg()` at position `i`: rolling mean of the trailing `w`
closes, NaN (`none`) until `w` observations. -/
def bollinger_mavg (w : Nat) (xs : List ℚ) (i : Nat) : Option ℚ :=
  if w ≤ i + 1 ∧ i < xs.length then some (listMean (rollingWindow w xs i)) else none

/-- The rolling population variance backing `bb.bollinger_hband()` and
`bb.bollinger_lband()`: the bands are mavg plus or minus twice the square
root of this. -/
def bollinger_var (w : Nat) (xs : List ℚ) (i : Nat) : Option ℚ :=
  if w ≤ i + 1 ∧ i < xs.length then some (listVar (rollingWindow w xs i)) else none

/-- One row of the indicator-extended DataFrame, as read by the strategy:
`Close`, `EMA50`, `bb_bbm`, and the variance determining `bb_bbh`/`bb_bbl`. -/
structure IndicatorSnapshot where
  close : ℚ
  ema50 : Option ℚ
  bb_bbm : Option ℚ
  bb_var : Option ℚ
deriving DecidableEq

/-- Float comparison `x > y` where `y` may be NaN (`none`): NaN compares false. -/
def gtNaN (x : ℚ) (y : Option ℚ) : Bool :=
  match y with
  | some v => decide (v < x)
  | none => false

/-- Float comparison `x < y` where `y` may be NaN (`none`): NaN compares false. -/
def ltNaN (x : ℚ) (y : Option ℚ) : Bool :=
  match y with
  | some v => decide (x < v)
  | none => false

/-- Exact rational test for `c < m + 2 * Real.sqrt v` (the source's
`Close < bb_bbh`); see `ltHband_iff_real`. -/
def ltHband (c m v : ℚ) : Bool :=
  decide (c < m ∨ (c - m) ^ 2 < 4 * v)

/-- Exact rational test for `m - 2 * Real.sqrt v < c` (the source's
`Close > bb_bbl`); see `gtLband_iff_real`. -/
def gtLband (c m v : ℚ) : Bool :=
  decide (m < c ∨ (c - m) ^ 2 < 4 * v)

/-- The source's `latest["Close"] < latest["bb_bbh"]` (false on NaN bands). -/
def ltBbh (s : IndicatorSnapshot) : Bool :=
  match s.bb_bbm, s.bb_var with
  | some m, some v => ltHband s.close m v
  | _, _ => false

/-- The source's `latest["Close"] > latest["bb_bbl"]` (false on NaN bands). -/
def gtBbl (s : IndicatorSnapshot) : Bool :=
  match s.bb_bbm, s.bb_var with
  | some m, some v => gtLband s.close m v
  | _, _ => false

/-- The condition cascade of `generate_signal` (lines 66-75 of the source),
on the `latest` and `previous` indicator rows. -/
def classify (latest previous : IndicatorSnapshot) : Signal :=
  if gtNaN latest.close latest.ema50 && ltNaN previous.close previous.ema50 then
    Signal.StrongBuy
  else if ltNaN latest.close latest.ema50 && gtNaN previous.close previous.ema50 then
    Signal.StrongSell
  else if gtNaN latest.close latest.bb_bbm && ltBbh latest then
    Signal.WeakBuy
  else if ltNaN latest.close latest.bb_bbm && gtBbl latest then
    Signal.WeakSell
  else
    Signal.Neutral

/-- Row `i` of the indicator-extended DataFrame over the close series. -/
def snapshotAt (closes : List ℚ) (i : Nat) : IndicatorSnapshot :=
  { close := closes.getD i 0
    ema50 := ema_indicator 50 closes i
    bb_bbm := bollinger_mavg 20 closes i
    bb_var := bollinger_var 20 closes i }

/-- `generate_signal(df)`: NoData on an empty frame; on a one-row frame
`df.iloc[-2]` raises IndexError (`none`); otherwise classify the last two
indicator rows. -/
def generate_signal (df : List Candle) : Option Signal :=
  if df.isEmpty then some Signal.NoData
  else if df.length < 2 then none
  else
    let closes := df.map Candle.close
    some (classify (snapshotAt closes (closes.length - 1))
                   (snapshotAt closes (closes.length - 2)))

/-- The fixed pair basket of `analyze_all_pairs`, in insertion order. -/
def pairs : List (String × String) :=
  [("EUR/USD", "EURUSDT"), ("GBP/USD", "GBPUSDT"), ("USD/JPY", "USDJPY"),
   ("USD/CHF", "USDCHF"), ("AUD/USD", "AUDUSDT"), ("NZD/USD", "NZDUSDT"),
   ("USD/CAD", "USDCAD")]

/-- `fetch_market_data`: any transport error is caught and yields an empty
DataFrame, a successful response yields its candle rows.  The network outcome
for a symbol is the argument: `none` = request raised, `some rows` = response. -/
def fetch_market_data (resp : Option (List Candle)) : List Candle :=
  resp.getD []

/-- The `for name, symbol in pairs.items()` loop body of `analyze_all_pairs`:
fetch, generate, append.  An exception escaping `generate_signal` aborts the
whole loop (`none`). -/
def scanPairs (resp : String → Option (List Candle)) :
    List (String × String) → Option (List (String × Signal))
  | [] => some []
  | p :: ps =>
    match generate_signal (fetch_market_data (resp p.2)), scanPairs resp ps with
    | some s, some rest => some ((p.1, s) :: rest)
    | _, _ => none

/-- `analyze_all_pairs()` under a given network outcome per symbol. -/
def analyze_all_pairs (resp : String → Option (List Candle)) :
    Option (List (String × Signal)) :=
  scanPairs resp pairs

/-! ## Specification-side definitions

These follow the spec's words, to be compared with the definitions above. -/

/-- A classification rule: a guard over the two snapshots and its outcome. -/
def Rule : Type :=
  (IndicatorSnapshot → IndicatorSnapshot → Bool) × Signal

/-- First-match evaluation of an ordered rule list, `Neutral` otherwise
(spec 4.3: "evaluated in this fixed priority order, first match wins"). -/
def firstMatch : List Rule → IndicatorSnapshot → IndicatorSnapshot → Signal
  | [], _, _ => Signal.Neutral
  | r :: rs, l, p => if r.1 l p then r.2 else firstMatch rs l p

/-- Spec rule 2: `latest.close > latest.ema` and `previous.close < previous.ema`. -/
def strongBuyRule (l p : IndicatorSnapshot) : Bool :=
  gtNaN l.close l.ema50 && ltNaN p.close p.ema50

/-- Spec rule 3: the symmetric downward crossing. -/
def strongSellRule (l p : IndicatorSnapshot) : Bool :=
  ltNaN l.close l.ema50 && gtNaN p.close p.ema50

/-- Spec rule 4: `latest.close` strictly between `bandCenter` and `bandUpper`. -/
def weakBuyRule (l _p : IndicatorSnapshot) : Bool :=
  gtNaN l.close l.bb_bbm && ltBbh l

/-- Spec rule 5: `latest.close` strictly between `bandLower` and `bandCenter`. -/
def weakSellRule (l _p : IndicatorSnapshot) : Bool :=
  ltNaN l.close l.bb_bbm && gtBbl l

/-- The ordered rule table of spec 4.3 (after the NoData guard). -/
def classifierRules : List Rule :=
  [(strongBuyRule, Signal.StrongBuy), (strongSellRule, Signal.StrongSell),
   (weakBuyRule, Signal.WeakBuy), (weakSellRule, Signal.WeakSell)]

/-- The effective condition under which `classify` yields a given signal:
its own guard together with the negation of every earlier guard. -/
def effCond (s : Signal) (l p : IndicatorSnapshot) : Bool :=
  match s with
  | Signal.StrongBuy => strongBuyRule l p
  | Signal.StrongSell => !strongBuyRule l p && strongSellRule l p
  | Signal.WeakBuy => !strongBuyRule l p && !strongSellRule l p && weakBuyRule l p
  | Signal.WeakSell =>
    !strongBuyRule l p && !strongSellRule l p && !weakBuyRule l p && weakSellRule l p
  | Signal.Neutral =>
    !strongBuyRule l p && !strongSellRule l p && !weakBuyRule l p && !weakSellRule l p
  | Signal.NoData => false

/-- Modelled from the spec's words (4.2): an EMA "seeded by the simple average
of the first `window` values", then the standard recursion with smoothing
`2/(window+1)`; positions before the window has accumulated are undefined.
Stated only to be compared against `ema_indicator`, the library semantics the
source actually uses. -/
def emaSmaSeeded (w : Nat) (xs : List ℚ) : Nat → Option ℚ
  | 0 => if w = 1 ∧ 0 < xs.length then some (listMean (xs.take 1)) else none
  | i + 1 =>
    if i + 2 < w ∨ xs.length ≤ i + 1 then none
    else if i + 2 = w then some (listMean (xs.take w))
    else (emaSmaSeeded w xs i).map
      (fun y => (1 - 2 / ((w : ℚ) + 1)) * y + (2 / ((w : ℚ) + 1)) * xs.getD (i + 1) 0)

/-- Closed form of the `ewm` recursion: position `i` carries weight `(1-a)^i`
on the FIRST value (the seed) plus `a * (1-a)^k` on the value `k` steps back. -/
def ewmClosedForm (a : ℚ) (xs : List ℚ) (i : Nat) : ℚ :=
  (1 - a) ^ i * xs.getD 0 0 +
    a * ((List.range i).map (fun k => (1 - a) ^ k * xs.getD (i - k) 0)).sum

/-! ## The auto-signal scheduler

`start`, `stop` and `auto_signal_loop` share the module globals
`auto_signal_running`, `auto_signal_task` and `chat_id_global`.  Handlers run
on one event loop and contain no await between reading and writing the flag,
so each handler invocation is one atomic step; the loop's iterations are
`tick` steps.  `liveLoops` are the launched and not yet finished or cancelled
loop tasks; `nextId` numbers task launches. -/

/-- A launched `auto_signal_loop` task: its identity and the `chat_id`
argument it captured at `asyncio.create_task` time. -/
structure LoopTask where
  id : Nat
  chatId : Nat
deriving DecidableEq

/-- The module-global scheduler state of the source, plus the set of live
loop tasks of the process. -/
structure SchedState where
  auto_signal_running : Bool
  auto_signal_task : Option LoopTask
  chat_id_global : Option Nat
  liveLoops : List LoopTask
  nextId : Nat
deriving DecidableEq

/-- The reply texts the handlers send back to the caller. -/
inductive Reply
  | started
  | alreadyRunning
  | stopped
  | notRunning
deriving DecidableEq

/-- Observable effects of a step: a handler reply, a delivered report from
loop task `taskId` to `chatId`, or a logged iteration error of a loop task. -/
inductive Out
  | reply (r : Reply)
  | deliver (taskId : Nat) (chatId : Nat)
  | logError (taskId : Nat)
deriving DecidableEq

/-- Outcome of one loop iteration body: scan and delivery succeed, the scan
raises, or `bot.send_message` raises. -/
inductive IterOutcome
  | ok
  | scanError
  | deliveryError
deriving DecidableEq

/-- Events: a `/start` command from a chat, a `/stop` command, or the live
loop tasks running one iteration with a given outcome. -/
inductive Ev
  | start (chat : Nat)
  | stop
  | tick (o : IterOutcome)
deriving DecidableEq

/-- Process start: `auto_signal_running = False`, no task, no chat target. -/
def initState : SchedState :=
  { auto_signal_running := false
    auto_signal_task := none
    chat_id_global := none
    liveLoops := []
    nextId := 0 }

/-- What the `try`/`except` iteration body of `auto_signal_loop` emits:
a delivery on success, a logged error otherwise — never an escaped
exception. -/
def iterEffect (t : LoopTask) (o : IterOutcome) : Out :=
  match o with
  | IterOutcome.ok => Out.deliver t.id t.chatId
  | IterOutcome.scanError => Out.logError t.id
  | IterOutcome.deliveryError => Out.logError t.id

/-- One atomic step of the system.
`start chat`: set `chat_id_global`, then either report already-active or set
the flag, reply, and launch a fresh loop task capturing `chat`.
`stop`: if running, clear the flag and cancel `auto_signal_task` (the
cancelled task leaves the live set at its sleep); else report not-running.
`tick o`: every live loop task checks `auto_signal_running`; while it is set
the task runs one iteration, otherwise it exits the `while` and finishes. -/
def stepEv (s : SchedState) : Ev → SchedState × List Out
  | Ev.start chat =>
    let s1 := { s with chat_id_global := some chat }
    if s1.auto_signal_running then
      (s1, [Out.reply Reply.alreadyRunning])
    else
      let t : LoopTask := { id := s1.nextId, chatId := chat }
      ({ s1 with auto_signal_running := true, auto_signal_task := some t,
                 liveLoops := s1.liveLoops ++ [t], nextId := s1.nextId + 1 },
       [Out.reply Reply.started])
  | Ev.stop =>
    if s.auto_signal_running then
      match s.auto_signal_task with
      | some t =>
        ({ s with auto_signal_running := false,
                  liveLoops := s.liveLoops.filter (fun u => u.id ≠ t.id) },
         [Out.reply Reply.stopped])
      | none =>
        ({ s with auto_signal_running := false }, [Out.reply Reply.stopped])
    else
      (s, [Out.reply Reply.notRunning])
  | Ev.tick o =>
    if s.auto_signal_running then
      (s, s.liveLoops.map (fun t => iterEffect t o))
    else
      ({ s with liveLoops := [] }, [])

/-- Run a sequence of events from a state, collecting all outputs in order. -/
def runEvents (s : SchedState) : List Ev → SchedState × List Out
  | [] => (s, [])
  | e :: es =>
    let p := stepEv s e
    let q := runEvents p.1 es
    (q.1, p.2 ++ q.2)

/-! ## The loop body in isolation

`auto_signal_loop` as a function of its trace: at each pass the `while`
condition reads the current value of `auto_signal_running` (first component)
and, if true, the body runs with some outcome (second component). -/

/-- Effect of one protected loop body pass: the `try` block delivers, any
exception is caught by the `except` and logged. -/
def loopBody (chatId : Nat) (o : IterOutcome) : Out :=
  match o with
  | IterOutcome.ok => Out.deliver 0 chatId
  | IterOutcome.scanError => Out.logError 0
  | IterOutcome.deliveryError => Out.logError 0

/-- `auto_signal_loop(bot, chat_id)` over a trace of
(flag value at the `while` check, iteration outcome) pairs: it keeps
iterating while the flag is true — whatever the outcomes — and exits at the
first false flag. -/
def auto_signal_loop (chatId : Nat) : List (Bool × IterOutcome) → List Out
  | [] => []
  | (running, o) :: rest =>
    if running then loopBody chatId o :: auto_signal_loop chatId rest
    else []

/-! ## Scheduler invariants -/

/-- Reachable-state invariant: while running there is exactly one live loop,
it is the recorded task, and its id was allotted from `nextId`; while idle
there is no live loop. -/
def SchedInv (s : SchedState) : Prop :=
  (s.auto_signal_running = true →
    ∃ t, s.auto_signal_task = some t ∧ s.liveLoops = [t] ∧ t.id < s.nextId) ∧
  (s.auto_signal_running = false → s.liveLoops = [])

theorem schedInv_init : SchedInv initState := by
  constructor <;> intro h <;> simp [initState] at h ⊢

theorem schedInv_step (s : SchedState) (e : Ev) (h : SchedInv s) :
    SchedInv (stepEv s e).1 := by
  obtain ⟨h1, h2⟩ := h
  cases e with
  | start chat =>
    cases hr : s.auto_signal_running with
    | true =>
      obtain ⟨t, ht, hl, hn⟩ := h1 hr
      constructor
      · intro _
        refine ⟨t, ?_, ?_, ?_⟩ <;> simp [stepEv, hr, ht, hl, hn]
      · intro hc
        simp [stepEv, hr] at hc
    | false =>
      have hl := h2 hr
      constructor
      · intro _
        refine ⟨⟨s.nextId, chat⟩, ?_, ?_, ?_⟩ <;> simp [stepEv, hr, hl]
      · intro hc
        simp [stepEv, hr] at hc
  | stop =>
    cases hr : s.auto_signal_running with
    | true =>
      obtain ⟨t, ht, hl, hn⟩ := h1 hr
      constructor
      · intro hc
        simp [stepEv, hr, ht] at hc
      · intro _
        simp [stepEv, hr, ht, hl, List.filter_cons]
    | false =>
      have hl := h2 hr
      constructor
      · intro hc
        simp [stepEv, hr] at hc
      · intro _
        simp [stepEv, hr, hl]
  | tick o =>
    cases hr : s.auto_signal_running with
    | true =>
      have hs : (stepEv s (Ev.tick o)).1 = s := by simp [stepEv, hr]
      rw [hs]
      exact ⟨h1, h2⟩
    | false =>
      constructor
      · intro hc
        simp [stepEv, hr] at hc
      · intro _
        simp [stepEv, hr]

theorem schedInv_runEvents (es : List Ev) :
    ∀ s : SchedState, SchedInv s → SchedInv (runEvents s es).1 := by
  induction es with
  | nil => intro s h; exact h
  | cons e es ih =>
    intro s h
    exact ih (stepEv s e).1 (schedInv_step s e h)

theorem schedInv_reach (es : List Ev) : SchedInv (runEvents initState es).1 :=
  schedInv_runEvents es initState schedInv_init

theorem stepEv_nextId_le (s : SchedState) (e : Ev) :
    s.nextId ≤ (stepEv s e).1.nextId := by
  cases e <;> cases hr : s.auto_signal_running <;>
    cases ht : s.auto_signal_task <;> simp [stepEv, hr, ht]

theorem stepEv_liveLoops_sub (s : SchedState) (e : Ev) :
    ∀ u ∈ (stepEv s e).1.liveLoops, u ∈ s.liveLoops ∨ s.nextId ≤ u.id := by
  intro u hu
  cases e with
  | start chat =>
    cases hr : s.auto_signal_running <;> simp [stepEv, hr] at hu
    · rcases hu with hu | hu
      · exact Or.inl hu
      · subst hu; exact Or.inr le_rfl
    · exact Or.inl hu
  | stop =>
    cases hr : s.auto_signal_running <;> cases ht : s.auto_signal_task <;>
      simp [stepEv, hr, ht] at hu <;> first
      | exact Or.inl hu
      | exact Or.inl hu.1
  | tick o =>
    cases hr : s.auto_signal_running <;> simp [stepEv, hr] at hu
    exact Or.inl hu

theorem stepEv_out_ids (s : SchedState) (e : Ev) :
    ∀ out ∈ (stepEv s e).2, ∀ tid ch,
      (out = Out.deliver tid ch ∨ out = Out.logError tid) →
      ∃ u, u ∈ s.liveLoops ∧ u.id = tid := by
  intro out hout tid ch hcase
  cases e with
  | start chat =>
    cases hr : s.auto_signal_running <;> simp [stepEv, hr] at hout <;>
      subst hout <;> rcases hcase with hc | hc <;> exact absurd hc (by simp)
  | stop =>
    cases hr : s.auto_signal_running <;> cases ht : s.auto_signal_task <;>
      simp [stepEv, hr, ht] at hout <;>
      subst hout <;> rcases hcase with hc | hc <;> exact absurd hc (by simp)
  | tick o =>
    cases hr : s.auto_signal_running <;> simp [stepEv, hr] at hout
    obtain ⟨u, hu, heq⟩ := hout
    refine ⟨u, hu, ?_⟩
    subst heq
    rcases hcase with hc | hc <;> cases o <;> simp [iterEffect] at hc <;> omega

theorem runEvents_out_ids (es : List Ev) :
    ∀ s : SchedState, ∀ out ∈ (runEvents s es).2, ∀ tid ch,
      (out = Out.deliver tid ch ∨ out = Out.logError tid) →
      (∃ u, u ∈ s.liveLoops ∧ u.id = tid) ∨ s.nextId ≤ tid := by
  induction es with
  | nil => intro s out hout; simp [runEvents] at hout
  | cons e es ih =>
    intro s out hout tid ch hcase
    simp only [runEvents, List.mem_append] at hout
    rcases hout with hout | hout
    · exact Or.inl (stepEv_out_ids s e out hout tid ch hcase)
    · rcases ih (stepEv s e).1 out hout tid ch hcase with ⟨u, hu, hid⟩ | hle
      · rcases stepEv_liveLoops_sub s e u hu with hmem | hge
        · exact Or.inl ⟨u, hmem, hid⟩
        · exact Or.inr (hid ▸ hge)
      · exact Or.inr (le_trans (stepEv_nextId_le s e) hle)

/-! ## Claim theorems: scheduler -/

/-- Claim C1: the automatic periodic loop is resilient to any single
iteration's failure — with the flag still set, an iteration whose scan or
delivery failed is followed by the next scheduled iteration exactly as a
successful one is, and the loop only exits when the flag has been cleared
(an explicit stop); on an all-true flag trace every scheduled iteration
occurs, whatever the outcomes. -/
theorem auto_signal_loop_resilient (chatId : Nat) (o : IterOutcome)
    (rest : List (Bool × IterOutcome)) :
    auto_signal_loop chatId ((true, o) :: rest)
      = loopBody chatId o :: auto_signal_loop chatId rest ∧
    auto_signal_loop chatId ((false, o) :: rest) = [] ∧
    ∀ steps : List (Bool × IterOutcome), (∀ st ∈ steps, st.1 = true) →
      (auto_signal_loop chatId steps).length = steps.length := by
  refine ⟨rfl, rfl, ?_⟩
  intro steps h
  induction steps with
  | nil => rfl
  | cons st tl ih =>
    obtain ⟨b, o2⟩ := st
    have hb : b = true := h (b, o2) (List.mem_cons_self _ _)
    subst hb
    simp only [auto_signal_loop, if_true, List.length_cons]
    rw [ih (fun x hx => h x (List.mem_cons_of_mem _ hx))]

theorem auto_signal_loop_resilient_witness :
    auto_signal_loop 7 [(true, IterOutcome.scanError), (true, IterOutcome.ok)]
      = [Out.logError 0, Out.deliver 0 7] ∧
    (auto_signal_loop 7
      [(true, IterOutcome.scanError), (true, IterOutcome.ok)]).length = 2 := by
  constructor
  · rfl
  · exact (auto_signal_loop_resilient 7 IterOutcome.scanError
      [(true, IterOutcome.ok)]).2.2
      [(true, IterOutcome.scanError), (true, IterOutcome.ok)] (by decide)

/-- Claim C3: at most one periodic run loop is active after any event
sequence, and a `start` received while already running replies
already-active, changes nothing but the global chat target, and launches no
second loop — a following iteration produces exactly the side effects the
single existing loop would have produced anyway. -/
theorem start_single_flight (es : List Ev) (c : Nat) (o : IterOutcome) :
    (runEvents initState es).1.liveLoops.length ≤ 1 ∧
    ((runEvents initState es).1.auto_signal_running = true →
      stepEv (runEvents initState es).1 (Ev.start c)
        = ({ (runEvents initState es).1 with chat_id_global := some c },
           [Out.reply Reply.alreadyRunning]) ∧
      (stepEv (stepEv (runEvents initState es).1 (Ev.start c)).1 (Ev.tick o)).2
        = (stepEv (runEvents initState es).1 (Ev.tick o)).2) := by
  obtain ⟨h1, h2⟩ := schedInv_reach es
  constructor
  · cases hr : (runEvents initState es).1.auto_signal_running with
    | true => obtain ⟨t, _, hl, _⟩ := h1 hr; simp [hl]
    | false => simp [h2 hr]
  · intro hr
    have hstep : stepEv (runEvents initState es).1 (Ev.start c)
        = ({ (runEvents initState es).1 with chat_id_global := some c },
           [Out.reply Reply.alreadyRunning]) := by
      simp [stepEv, hr]
    refine ⟨hstep, ?_⟩
    rw [hstep]
    simp [stepEv, hr]

theorem start_single_flight_witness :
    (runEvents initState [Ev.start 1]).1.auto_signal_running = true ∧
    (runEvents initState [Ev.start 1]).1.liveLoops.length ≤ 1 ∧
    stepEv (runEvents initState [Ev.start 1]).1 (Ev.start 2)
      = ({ (runEvents initState [Ev.start 1]).1 with chat_id_global := some 2 },
         [Out.reply Reply.alreadyRunning]) := by
  have h := start_single_flight [Ev.start 1] 2 IterOutcome.ok
  exact ⟨by decide, h.1, (h.2 (by decide)).1⟩

/-- Claim C4: `stop` while running clears the flag, cancels the active loop
(no live loop remains), replies stopped, and no iteration of that loop ever
starts afterwards — whatever events follow, none of its deliveries or logged
errors appear; `stop` while idle changes nothing and replies not-running. -/
theorem stop_halts_loop (es es2 : List Ev) :
    ((runEvents initState es).1.auto_signal_running = true →
      (stepEv (runEvents initState es).1 Ev.stop).1.auto_signal_running = false ∧
      (stepEv (runEvents initState es).1 Ev.stop).2 = [Out.reply Reply.stopped] ∧
      (stepEv (runEvents initState es).1 Ev.stop).1.liveLoops = [] ∧
      (∀ t, (runEvents initState es).1.auto_signal_task = some t →
        ∀ ch,
          Out.deliver t.id ch ∉
            (runEvents (stepEv (runEvents initState es).1 Ev.stop).1 es2).2 ∧
          Out.logError t.id ∉
            (runEvents (stepEv (runEvents initState es).1 Ev.stop).1 es2).2)) ∧
    ((runEvents initState es).1.auto_signal_running = false →
      stepEv (runEvents initState es).1 Ev.stop
        = ((runEvents initState es).1, [Out.reply Reply.notRunning])) := by
  obtain ⟨h1, h2⟩ := schedInv_reach es
  constructor
  · intro hr
    obtain ⟨t, ht, hl, hn⟩ := h1 hr
    have hrun : (stepEv (runEvents initState es).1 Ev.stop).1.auto_signal_running
        = false := by
      simp [stepEv, hr, ht]
    have hout : (stepEv (runEvents initState es).1 Ev.stop).2
        = [Out.reply Reply.stopped] := by
      simp [stepEv, hr, ht]
    have hlive : (stepEv (runEvents initState es).1 Ev.stop).1.liveLoops = [] := by
      simp [stepEv, hr, ht, hl, List.filter_cons]
    have hnext : (stepEv (runEvents initState es).1 Ev.stop).1.nextId
        = (runEvents initState es).1.nextId := by
      simp [stepEv, hr, ht]
    refine ⟨hrun, hout, hlive, ?_⟩
    intro t2 ht2 ch
    have ht2t : t2 = t := (Option.some.inj (ht.symm.trans ht2)).symm
    subst ht2t
    constructor
    · intro hmem
      rcases runEvents_out_ids es2 _ _ hmem t2.id ch (Or.inl rfl) with
        ⟨u, hu, _⟩ | hle
      · rw [hlive] at hu
        simp at hu
      · rw [hnext] at hle
        omega
    · intro hmem
      rcases runEvents_out_ids es2 _ _ hmem t2.id ch (Or.inr rfl) with
        ⟨u, hu, _⟩ | hle
      · rw [hlive] at hu
        simp at hu
      · rw [hnext] at hle
        omega
  · intro hr
    simp [stepEv, hr]

theorem stop_halts_loop_witness :
    (runEvents initState [Ev.start 3]).1.auto_signal_running = true ∧
    (stepEv (runEvents initState [Ev.start 3]).1 Ev.stop).1.auto_signal_running
      = false ∧
    (stepEv (runEvents initState [Ev.start 3]).1 Ev.stop).1.liveLoops = [] ∧
    ∀ ch, Out.deliver 0 ch ∉
      (runEvents (stepEv (runEvents initState [Ev.start 3]).1 Ev.stop).1
        [Ev.start 4, Ev.tick IterOutcome.ok]).2 := by
  have h := (stop_halts_loop [Ev.start 3] [Ev.start 4, Ev.tick IterOutcome.ok]).1
    (by decide)
  refine ⟨by decide, h.1, h.2.2.1, ?_⟩
  intro ch
  exact (h.2.2.2 ⟨0, 3⟩ (by decide) ch).1

/-- Claim C10: a `start` received while the loop is running still overwrites
the global chat target with the new caller's chat before replying
already-active, but the active loop task is unchanged and keeps delivering to
the chat id it captured at launch. -/
theorem loop_destination_fixed_at_launch (es : List Ev) (c : Nat)
    (hr : (runEvents initState es).1.auto_signal_running = true) :
    ∃ t, (runEvents initState es).1.auto_signal_task = some t ∧
      (stepEv (runEvents initState es).1 (Ev.start c)).1.chat_id_global
        = some c ∧
      (stepEv (runEvents initState es).1 (Ev.start c)).1.auto_signal_task
        = some t ∧
      (stepEv (runEvents initState es).1 (Ev.start c)).2
        = [Out.reply Reply.alreadyRunning] ∧
      ∀ o, (stepEv (stepEv (runEvents initState es).1 (Ev.start c)).1
              (Ev.tick o)).2
            = (if o = IterOutcome.ok then [Out.deliver t.id t.chatId]
               else [Out.logError t.id]) := by
  obtain ⟨h1, _⟩ := schedInv_reach es
  obtain ⟨t, ht, hl, _⟩ := h1 hr
  refine ⟨t, ht, ?_, ?_, ?_, ?_⟩ <;> try simp [stepEv, hr, ht]
  intro o
  simp [stepEv, hr, hl]
  cases o <;> simp [iterEffect]

/-! ## Band comparison bridging lemmas

`ltHband`/`gtLband` are exact rational decision procedures for the float
comparisons against `mavg + 2*std` and `mavg - 2*std` with
`std = Real.sqrt variance`; these lemmas state that exactness. -/

theorem ltHband_iff_real (c m v : ℚ) :
    ltHband c m v = true ↔ (c : ℝ) < (m : ℝ) + 2 * Real.sqrt (v : ℝ) := by
  have hq : ltHband c m v = true ↔
      ((c : ℝ) < (m : ℝ) ∨ ((c : ℝ) - (m : ℝ)) ^ 2 < 4 * (v : ℝ)) := by
    unfold ltHband
    rw [decide_eq_true_eq]
    constructor
    · rintro (h | h)
      · exact Or.inl (by exact_mod_cast h)
      · exact Or.inr (by exact_mod_cast h)
    · rintro (h | h)
      · exact Or.inl (by exact_mod_cast h)
      · exact Or.inr (by exact_mod_cast h)
  rw [hq]
  rcases le_or_lt 0 ((v : ℚ) : ℝ) with hv | hv
  · have hs := Real.sq_sqrt hv
    have hsn := Real.sqrt_nonneg ((v : ℚ) : ℝ)
    constructor
    · rintro (h | h)
      · nlinarith
      · nlinarith
    · intro h
      by_cases hcm : (c : ℝ) < (m : ℝ)
      · exact Or.inl hcm
      · push_neg at hcm
        exact Or.inr (by nlinarith)
  · have hs : Real.sqrt ((v : ℚ) : ℝ) = 0 := Real.sqrt_eq_zero_of_nonpos hv.le
    rw [hs]
    constructor
    · rintro (h | h)
      · linarith
      · nlinarith [sq_nonneg ((c : ℝ) - (m : ℝ))]
    · intro h
      exact Or.inl (by linarith)

theorem gtLband_iff_real (c m v : ℚ) :
    gtLband c m v = true ↔ (m : ℝ) - 2 * Real.sqrt (v : ℝ) < (c : ℝ) := by
  have hq : gtLband c m v = true ↔
      ((m : ℝ) < (c : ℝ) ∨ ((c : ℝ) - (m : ℝ)) ^ 2 < 4 * (v : ℝ)) := by
    unfold gtLband
    rw [decide_eq_true_eq]
    constructor
    · rintro (h | h)
      · exact Or.inl (by exact_mod_cast h)
      · exact Or.inr (by exact_mod_cast h)
    · rintro (h | h)
      · exact Or.inl (by exact_mod_cast h)
      · exact Or.inr (by exact_mod_cast h)
  rw [hq]
  rcases le_or_lt 0 ((v : ℚ) : ℝ) with hv | hv
  · have hs := Real.sq_sqrt hv
    have hsn := Real.sqrt_nonneg ((v : ℚ) : ℝ)
    constructor
    · rintro (h | h)
      · nlinarith
      · nlinarith
    · intro h
      by_cases hcm : (m : ℝ) < (c : ℝ)
      · exact Or.inl hcm
      · push_neg at hcm
        exact Or.inr (by nlinarith)
  · have hs : Real.sqrt ((v : ℚ) : ℝ) = 0 := Real.sqrt_eq_zero_of_nonpos hv.le
    rw [hs]
    constructor
    · rintro (h | h)
      · linarith
      · nlinarith [sq_nonneg ((c : ℝ) - (m : ℝ))]
    · intro h
      exact Or.inl (by linarith)

/-- The nested conditionals of the source equal first-match evaluation of the
ordered rule table. -/
theorem classify_eq_firstMatch (l p : IndicatorSnapshot) :
    classify l p = firstMatch classifierRules l p := rfl

theorem loop_destination_fixed_at_launch_witness :
    ∃ t, (runEvents initState [Ev.start 1]).1.auto_signal_task = some t ∧
      (stepEv (runEvents initState [Ev.start 1]).1 (Ev.start 2)).1.chat_id_global
        = some 2 ∧
      (stepEv (runEvents initState [Ev.start 1]).1 (Ev.start 2)).1.auto_signal_task
        = some t ∧
      (stepEv (runEvents initState [Ev.start 1]).1 (Ev.start 2)).2
        = [Out.reply Reply.alreadyRunning] ∧
      ∀ o, (stepEv (stepEv (runEvents initState [Ev.start 1]).1 (Ev.start 2)).1
              (Ev.tick o)).2
            = (if o = IterOutcome.ok then [Out.deliver t.id t.chatId]
               else [Out.logError t.id]) :=
  loop_destination_fixed_at_launch [Ev.start 1] 2 (by decide)

/-! ## Claim theorems: classifier -/

/-- Claim C6: the classifier evaluates its rules in the fixed priority order
NoData (no data available), StrongBuy (upward EMA crossing), StrongSell
(downward EMA crossing), WeakBuy (close strictly between band center and
upper band), WeakSell (close strictly between lower band and band center),
otherwise Neutral — first match wins — and the band guards are exactly the
strict comparisons against center plus or minus twice the standard
deviation. -/
theorem classify_priority_order (df : List Candle) :
    (generate_signal df =
      if df.isEmpty then some Signal.NoData
      else if df.length < 2 then none
      else some (firstMatch classifierRules
        (snapshotAt (df.map Candle.close) ((df.map Candle.close).length - 1))
        (snapshotAt (df.map Candle.close) ((df.map Candle.close).length - 2)))) ∧
    (∀ c m v : ℚ,
      (ltHband c m v = true ↔ (c : ℝ) < (m : ℝ) + 2 * Real.sqrt (v : ℝ)) ∧
      (gtLband c m v = true ↔ (m : ℝ) - 2 * Real.sqrt (v : ℝ) < (c : ℝ))) := by
  refine ⟨?_, fun c m v => ⟨ltHband_iff_real c m v, gtLband_iff_real c m v⟩⟩
  unfold generate_signal
  by_cases he : df.isEmpty
  · simp [he]
  · by_cases h2 : df.length < 2
    · simp [he, h2]
    · simp [he, h2, classify_eq_firstMatch]

/-- Claim C8: the classifier is total and deterministic — for every pair of
snapshots exactly one effective condition (a rule guard conjoined with the
negation of all earlier guards) holds, and `classify` returns precisely that
rule's signal; in particular the five non-NoData outcomes are mutually
exclusive. -/
theorem classify_total_deterministic (l p : IndicatorSnapshot) :
    effCond (classify l p) l p = true ∧
    ∀ s : Signal, effCond s l p = true → s = classify l p := by
  have hc := classify_eq_firstMatch l p
  cases h1 : strongBuyRule l p <;> cases h2 : strongSellRule l p <;>
    cases h3 : weakBuyRule l p <;> cases h4 : weakSellRule l p <;>
    rw [hc] <;>
    simp only [firstMatch, classifierRules, h1, h2, h3, h4, if_true, if_false,
      Bool.false_eq_true, Bool.true_eq_false] <;>
    refine ⟨by simp [effCond, h1, h2, h3, h4], ?_⟩ <;>
    intro s <;> cases s <;> simp_all [effCond]

theorem classify_total_deterministic_witness :
    effCond (classify ⟨2, some 1, none, none⟩ ⟨0, some 1, none, none⟩)
        ⟨2, some 1, none, none⟩ ⟨0, some 1, none, none⟩ = true ∧
    ∀ s : Signal,
      effCond s ⟨2, some 1, none, none⟩ ⟨0, some 1, none, none⟩ = true →
      s = classify ⟨2, some 1, none, none⟩ ⟨0, some 1, none, none⟩ :=
  classify_total_deterministic ⟨2, some 1, none, none⟩ ⟨0, some 1, none, none⟩

/-! ## Claim theorems: the scan -/

theorem generate_signal_total (df : List Candle) (h : df.length ≠ 1) :
    ∃ s, generate_signal df = some s := by
  unfold generate_signal
  by_cases he : df.isEmpty
  · simp [he]
  · have hlen : ¬ df.length < 2 := by
      cases df with
      | nil => simp at he
      | cons a l =>
        cases l with
        | nil => simp at h
        | cons b l2 => simp
    simp [he, hlen]

/-- Claim C2 counterexample: the scan CAN fail as a whole — when a fetch
returns a single-candle window, `df.iloc[-2]` in `generate_signal` raises
IndexError, `analyze_all_pairs` propagates it, and no report at all is
produced (instead of a report with one entry per pair). -/
theorem analyze_all_pairs_fails_on_single_candle :
    analyze_all_pairs (fun _ => some [⟨1, 1, 1, 1⟩]) = none := rfl

/-- Claim C2 (amended): provided no fetch returns a single-candle window
(each pair's window is empty — including every fetch failure — or has at
least two candles), the scan never fails as a whole and returns a report with
exactly one entry per configured pair, in the configured order. -/
theorem analyze_all_pairs_one_entry_per_pair
    (resp : String → Option (List Candle))
    (h : ∀ p ∈ pairs, (fetch_market_data (resp p.2)).length ≠ 1) :
    ∃ rep, analyze_all_pairs resp = some rep ∧
      rep.map Prod.fst = pairs.map Prod.fst ∧ rep.length = pairs.length := by
  have main : ∀ ps : List (String × String),
      (∀ p ∈ ps, (fetch_market_data (resp p.2)).length ≠ 1) →
      ∃ rep, scanPairs resp ps = some rep ∧ rep.map Prod.fst = ps.map Prod.fst := by
    intro ps
    induction ps with
    | nil => intro _; exact ⟨[], rfl, rfl⟩
    | cons p ps ih =>
      intro hh
      obtain ⟨s, hs⟩ := generate_signal_total _ (hh p (List.mem_cons_self _ _))
      obtain ⟨rep, hrep, hmap⟩ := ih (fun q hq => hh q (List.mem_cons_of_mem _ hq))
      refine ⟨(p.1, s) :: rep, ?_, ?_⟩
      · simp [scanPairs, hs, hrep]
      · simp [hmap]
  obtain ⟨rep, hrep, hmap⟩ := main pairs h
  refine ⟨rep, hrep, hmap, ?_⟩
  have hlen := congrArg List.length hmap
  simpa using hlen

theorem analyze_all_pairs_one_entry_per_pair_witness :
    ∃ rep, analyze_all_pairs (fun _ => none) = some rep ∧
      rep.map Prod.fst = pairs.map Prod.fst ∧ rep.length = pairs.length :=
  analyze_all_pairs_one_entry_per_pair (fun _ => none) (by decide)

/-- Claim C5 counterexample: a non-empty close series shorter than the
indicator windows is NOT classified NoData — two candles yield Neutral
("no clear signal"), not NoData ("no data available"). -/
theorem short_history_not_nodata :
    generate_signal [⟨1, 1, 1, 1⟩, ⟨1, 1, 1, 1⟩] = some Signal.Neutral ∧
    Signal.Neutral ≠ Signal.NoData := by
  constructor
  · decide
  · decide

/-- Claim C5 (amended): only an EMPTY series is classified NoData; a
one-point series makes `generate_signal` raise (IndexError on
`df.iloc[-2]`); a series with at least 2 and fewer than 20 points — fewer
than either indicator window needs — is classified Neutral, because every
comparison against an undefined indicator value is false.  Short histories
are never classified NoData. -/
theorem insufficient_history_classification (df : List Candle) :
    (df = [] → generate_signal df = some Signal.NoData) ∧
    (df.length = 1 → generate_signal df = none) ∧
    (2 ≤ df.length → df.length < 20 → generate_signal df = some Signal.Neutral) := by
  refine ⟨?_, ?_, ?_⟩
  · intro h
    subst h
    rfl
  · intro h
    have he : df.isEmpty = false := by
      cases df <;> simp_all
    unfold generate_signal
    simp [he, h]
  · intro h2 h20
    have he : df.isEmpty = false := by
      cases df <;> simp_all
    have hlt : ¬ df.length < 2 := by omega
    have hmaplen : (df.map Candle.close).length = df.length := List.length_map _ _
    have hema1 : ema_indicator 50 (df.map Candle.close) (df.length - 1) = none := by
      unfold ema_indicator
      rw [if_neg]
      omega
    have hema2 : ema_indicator 50 (df.map Candle.close) (df.length - 2) = none := by
      unfold ema_indicator
      rw [if_neg]
      omega
    have hbbm1 : bollinger_mavg 20 (df.map Candle.close) (df.length - 1) = none := by
      unfold bollinger_mavg
      rw [if_neg]
      omega
    unfold generate_signal
    simp [he, hlt, classify, snapshotAt, hema1, hema2, hbbm1, gtNaN, ltNaN,
      ltBbh, gtBbl]

theorem insufficient_history_classification_witness :
    generate_signal [⟨1, 1, 1, 1⟩] = none ∧
    generate_signal [⟨1, 1, 1, 1⟩, ⟨2, 2, 2, 2⟩] = some Signal.Neutral := by
  have h1 := insufficient_history_classification [⟨1, 1, 1, 1⟩]
  have h2 := insufficient_history_classification [⟨1, 1, 1, 1⟩, ⟨2, 2, 2, 2⟩]
  exact ⟨h1.2.1 (by decide), h2.2.2 (by decide) (by decide)⟩

/-! ## Indicator lemmas -/

theorem listConstSum (l : List ℚ) (c : ℚ) (h : ∀ x ∈ l, x = c) :
    l.sum = (l.length : ℚ) * c := by
  induction l with
  | nil => simp
  | cons a t ih =>
    have ha : a = c := h a (List.mem_cons_self _ _)
    have ht : ∀ x ∈ t, x = c := fun x hx => h x (List.mem_cons_of_mem _ hx)
    rw [List.sum_cons, ha, ih ht, List.length_cons]
    push_cast
    ring

theorem listMean_const (l : List ℚ) (c : ℚ) (h : ∀ x ∈ l, x = c)
    (hne : l.length ≠ 0) : listMean l = c := by
  unfold listMean
  rw [listConstSum l c h]
  have hq : (l.length : ℚ) ≠ 0 := Nat.cast_ne_zero.mpr hne
  field_simp

theorem listVar_const (l : List ℚ) (c : ℚ) (h : ∀ x ∈ l, x = c)
    (hne : l.length ≠ 0) : listVar l = 0 := by
  unfold listVar
  have hm := listMean_const l c h hne
  have hz : ∀ y ∈ l.map (fun x => (x - listMean l) ^ 2), y = 0 := by
    intro y hy
    obtain ⟨x, hx, hxy⟩ := List.mem_map.mp hy
    rw [← hxy, h x hx, hm]
    ring
  rw [listConstSum _ 0 hz]
  simp

theorem rollingWindow_subset (w : Nat) (xs : List ℚ) (i : Nat) :
    ∀ x ∈ rollingWindow w xs i, x ∈ xs := by
  intro x hx
  exact List.take_subset _ _ (List.drop_subset _ _ hx)

theorem rollingWindow_length (w : Nat) (xs : List ℚ) (i : Nat)
    (h1 : w ≤ i + 1) (h2 : i < xs.length) :
    (rollingWindow w xs i).length = w := by
  unfold rollingWindow
  rw [List.length_drop, List.length_take]
  omega

theorem ewm_const (a c : ℚ) (xs : List ℚ) (h : ∀ x ∈ xs, x = c) :
    ∀ i, i < xs.length → ewm a xs i = c := by
  intro i
  induction i with
  | zero =>
    intro hi
    rw [ewm, List.getD_eq_getElem xs 0 hi]
    exact h _ (List.getElem_mem hi)
  | succ i ih =>
    intro hi
    have hi2 : i < xs.length := by omega
    rw [ewm, ih hi2, List.getD_eq_getElem xs 0 hi,
      h _ (List.getElem_mem hi)]
    ring

theorem sum_map_factor (b : ℚ) (f : Nat → ℚ) (L : List Nat) :
    (L.map (fun k => b * f k)).sum = b * (L.map f).sum := by
  induction L with
  | nil => simp
  | cons x t ih =>
    rw [List.map_cons, List.sum_cons, ih, List.map_cons, List.sum_cons]
    ring

theorem ewm_closed_form (a : ℚ) (xs : List ℚ) :
    ∀ i, ewm a xs i = ewmClosedForm a xs i := by
  intro i
  induction i with
  | zero => simp [ewm, ewmClosedForm]
  | succ i ih =>
    rw [ewm, ih]
    unfold ewmClosedForm
    rw [List.range_succ_eq_map, List.map_cons, List.sum_cons, List.map_map]
    have hcomp : ((fun k => (1 - a) ^ k * xs.getD (i + 1 - k) 0) ∘ Nat.succ)
        = fun k => (1 - a) * ((1 - a) ^ k * xs.getD (i - k) 0) := by
      funext k
      simp only [Function.comp_apply, Nat.succ_sub_succ, pow_succ]
      ring
    rw [hcomp, sum_map_factor]
    simp only [Nat.sub_zero, pow_zero, one_mul, pow_succ]
    ring

/-! ## Claim theorems: indicators -/

/-- Claim C9: on a constant price series of length at least 50 every defined
position has close = EMA = band center, the rolling variance is zero, and
therefore upper band = lower band = band center (zero variance gives zero
band width). -/
theorem compute_constant_series (xs : List ℚ) (c : ℚ)
    (hc : ∀ x ∈ xs, x = c) (hlen : 50 ≤ xs.length) :
    ∀ i, i < xs.length →
      xs.getD i 0 = c ∧
      (49 ≤ i → ema_indicator 50 xs i = some c) ∧
      (19 ≤ i → ∃ m v, bollinger_mavg 20 xs i = some m ∧
        bollinger_var 20 xs i = some v ∧ m = c ∧ v = 0 ∧
        (m : ℝ) + 2 * Real.sqrt (v : ℝ) = (m : ℝ) ∧
        (m : ℝ) - 2 * Real.sqrt (v : ℝ) = (m : ℝ)) := by
  intro i hi
  have hget : xs.getD i 0 = c := by
    rw [List.getD_eq_getElem xs 0 hi]
    exact hc _ (List.getElem_mem hi)
  refine ⟨hget, ?_, ?_⟩
  · intro h49
    unfold ema_indicator
    rw [if_pos ⟨by omega, hi⟩, ewm_const _ c xs hc i hi]
  · intro h19
    have hcond : 20 ≤ i + 1 ∧ i < xs.length := ⟨by omega, hi⟩
    have hwlen : (rollingWindow 20 xs i).length = 20 :=
      rollingWindow_length 20 xs i (by omega) hi
    have hwc : ∀ x ∈ rollingWindow 20 xs i, x = c :=
      fun x hx => hc x (rollingWindow_subset 20 xs i x hx)
    have hm : listMean (rollingWindow 20 xs i) = c :=
      listMean_const _ c hwc (by omega)
    have hv : listVar (rollingWindow 20 xs i) = 0 :=
      listVar_const _ c hwc (by omega)
    refine ⟨c, 0, ?_, ?_, rfl, rfl, ?_, ?_⟩
    · unfold bollinger_mavg
      rw [if_pos hcond, hm]
    · unfold bollinger_var
      rw [if_pos hcond, hv]
    · simp
    · simp

theorem compute_constant_series_witness :
    ema_indicator 50 (List.replicate 50 1) 49 = some 1 ∧
    ∃ m v, bollinger_mavg 20 (List.replicate 50 1) 49 = some m ∧
      bollinger_var 20 (List.replicate 50 1) 49 = some v ∧ m = 1 ∧ v = 0 ∧
      (m : ℝ) + 2 * Real.sqrt (v : ℝ) = (m : ℝ) ∧
      (m : ℝ) - 2 * Real.sqrt (v : ℝ) = (m : ℝ) := by
  have h := compute_constant_series (List.replicate 50 1) 1
    (fun x hx => List.eq_of_mem_replicate hx) (by simp) 49 (by simp)
  exact ⟨h.2.1 (by omega), h.2.2 (by omega)⟩

/-- Claim C7 (amended): the EMA has smoothing factor 2/(window+1) and
positions before the window has accumulated are undefined, but it is NOT
seeded by the simple average of the first window values: it is the
adjust-false recursion seeded by the FIRST value — position i carries weight
(1-a)^i on the first close plus a*(1-a)^k on the close k steps back. -/
theorem ema_indicator_characterization (w : Nat) (xs : List ℚ) (i : Nat)
    (h1 : w ≤ i + 1) (h2 : i < xs.length) :
    ema_indicator w xs i = some (ewmClosedForm (2 / ((w : ℚ) + 1)) xs i) ∧
    ∀ j, j + 1 < w → ema_indicator w xs j = none := by
  constructor
  · unfold ema_indicator
    rw [if_pos ⟨h1, h2⟩, ewm_closed_form]
  · intro j hj
    unfold ema_indicator
    rw [if_neg]
    omega

theorem ema_indicator_characterization_witness :
    ema_indicator 50 (List.replicate 50 1) 49
      = some (ewmClosedForm (2 / ((50 : ℚ) + 1)) (List.replicate 50 1) 49) ∧
    ∀ j, j + 1 < 50 → ema_indicator 50 (List.replicate 50 1) j = none :=
  ema_indicator_characterization 50 (List.replicate 50 1) 49 (by omega) (by simp)

theorem getD_replicate_zero (k i : Nat) :
    (List.replicate k (0 : ℚ)).getD i 0 = 0 := by
  rcases Nat.lt_or_ge i k with h | h
  · rw [List.getD_eq_getElem _ 0 (by simpa using h)]
    simp
  · rw [List.getD_eq_default _ 0 (by simpa using h)]

theorem ewm_cons_zeros (a x : ℚ) (k : Nat) :
    ∀ i, ewm a (x :: List.replicate k 0) i = (1 - a) ^ i * x := by
  intro i
  induction i with
  | zero => simp [ewm]
  | succ i ih =>
    rw [ewm, ih]
    have hz : (x :: List.replicate k (0 : ℚ)).getD (i + 1) 0 = 0 := by
      show (List.replicate k (0 : ℚ)).getD i 0 = 0
      exact getD_replicate_zero k i
    rw [hz, pow_succ]
    ring

/-- Claim C7 counterexample: on the 50-point series 1,0,...,0 the source's
EMA at the first defined position equals (49/51)^49 — the recursion seeded by
the first value — whereas an EMA seeded by the simple average of the first 50
values would equal 1/50 there; the two values differ. -/
theorem ema_not_sma_seeded :
    ema_indicator 50 (1 :: List.replicate 49 0) 49 = some (((49 : ℚ) / 51) ^ 49) ∧
    emaSmaSeeded 50 (1 :: List.replicate 49 0) 49 = some (1 / 50) ∧
    ((49 : ℚ) / 51) ^ 49 ≠ 1 / 50 := by
  refine ⟨?_, ?_, ?_⟩
  · unfold ema_indicator
    rw [if_pos ⟨by omega, by simp⟩, ewm_cons_zeros]
    rw [mul_one]
    congr 1
    push_cast
    norm_num
  · show emaSmaSeeded 50 (1 :: List.replicate 49 0) (48 + 1) = some (1 / 50)
    rw [emaSmaSeeded]
    have hlen : (1 :: List.replicate 49 (0 : ℚ)).length = 50 := by simp
    rw [if_neg (by rw [hlen]; omega), if_pos rfl]
    have htake : (1 :: List.replicate 49 (0 : ℚ)).take 50
        = 1 :: List.replicate 49 0 := List.take_of_length_le (by rw [hlen])
    rw [htake]
    unfold listMean
    rw [hlen]
    simp [List.sum_cons, List.sum_replicate]
  · intro heq
    have : ((49 : ℚ) / 51) ^ 49 = 1 / 50 := heq
    norm_num at this

end SignalBot
